import Mathlib

/-!
Shallow embedding of the revolt-gemini-bot repository
(src/frontend/app.js, src/frontend/input-processor.js, and the relay
server contained in the same bundle), together with theorems checking
the natural-language specification against the code.

Conventions of the embedding:
* JavaScript booleans become `Bool`; nullable object references become a
  `Bool` recording presence (`geminiSession`), since only presence is
  ever tested by the code; the armed idle timer becomes `idleTimerArmed`.
* Side effects (WebSocket sends, upstream API calls, closes) are
  returned as an explicit trace `List Emit` in program order.
* External asynchronous calls that can reject (here only
  `ai.live.connect`) are given an outcome parameter (`openOk`); the
  upstream `sendRealtimeInput` calls are modelled as succeeding effects.
* The audio clock of the browser is `ℚ` (AudioContext.currentTime);
  16-bit PCM samples are `ℤ`, raw bytes are `Nat`.
-/

namespace RevoltGemini

/-- An observable effect of the relay server, in program order.
`clientBinary f` is a binary WebSocket frame `f` (type tag byte first)
sent to the client; `clientCtrl t m` is a JSON control message with
`type` field `t` and `message` field `m`; `upstreamStop` is
`sendRealtimeInput -- event stop` to the Gemini session; `upstreamAudio a`
is `sendRealtimeInput` forwarding the audio bytes `a`; `upstreamClose`
closes the Gemini session; `clientClose` closes the client WebSocket. -/
inductive Emit where
  | clientBinary (frame : List Nat)
  | clientCtrl (msgType : String) (message : String)
  | upstreamStop
  | upstreamAudio (audio : List Nat)
  | upstreamClose
  | clientClose
  deriving DecidableEq, Repr

/-- Per-connection session state of the relay server (the `sessionState`
object created in the `wss.on connection` handler, plus `clientOpen`
mirroring `clientWS.readyState === OPEN`). `geminiSession` records
whether the upstream connection object is non-null. -/
structure SessionState where
  geminiSession : Bool
  isAISpeaking : Bool
  idleTimerArmed : Bool
  isActive : Bool
  clientOpen : Bool
  deriving DecidableEq, Repr

/-- `safeSend` from the server: sends only when the WebSocket is open,
otherwise drops silently. -/
def safeSend (wsOpen : Bool) (e : Emit) : List Emit :=
  if wsOpen then [e] else []

/-- `cleanupSession` from the server: a guarded, idempotent teardown.
If the session is already inactive it returns immediately; otherwise it
marks the session inactive, cancels the idle timer, closes and nulls the
Gemini session if present, and closes the client WebSocket if open. -/
def cleanupSession (st : SessionState) : SessionState × List Emit :=
  if st.isActive = false then (st, [])
  else
    let st1 : SessionState :=
      { st with isActive := false, idleTimerArmed := false }
    let p1 : SessionState × List Emit :=
      if st1.geminiSession then
        ({ st1 with geminiSession := false }, [Emit.upstreamClose])
      else (st1, [])
    let p2 : SessionState × List Emit :=
      if p1.1.clientOpen then
        ({ p1.1 with clientOpen := false }, [Emit.clientClose])
      else (p1.1, [])
    (p2.1, p1.2 ++ p2.2)

/-- C4: session cleanup is idempotent.  A second invocation of
`cleanupSession` (any later invocation, by induction) leaves the state
of the first invocation unchanged and performs no effect; the idle timer
is cancelled, and the upstream close and client close effects each occur
exactly once when the corresponding resource was held, so no double
close is ever issued. -/
theorem cleanupSession_idempotent (st : SessionState) :
    cleanupSession (cleanupSession st).1 = ((cleanupSession st).1, []) ∧
    (cleanupSession st).2.count Emit.upstreamClose ≤ 1 ∧
    (cleanupSession st).2.count Emit.clientClose ≤ 1 ∧
    (st.isActive = true → (cleanupSession st).1.idleTimerArmed = false) ∧
    (st.isActive = true → st.geminiSession = true →
      (cleanupSession st).2.count Emit.upstreamClose = 1) ∧
    (st.isActive = true → st.clientOpen = true →
      (cleanupSession st).2.count Emit.clientClose = 1) := by
  rcases st with ⟨g, sp, tm, act, cl⟩
  cases act <;> cases g <;> cases cl <;>
    simp [cleanupSession, List.count_cons, List.count_append]

/-- Witness for `cleanupSession_idempotent` at a fully live session. -/
theorem cleanupSession_idempotent_witness :
    (true = true ∧ true = true) ∧
    (cleanupSession (cleanupSession ⟨true, true, true, true, true⟩).1
        = ((cleanupSession ⟨true, true, true, true, true⟩).1, []) ∧
      (cleanupSession ⟨true, true, true, true, true⟩).2.count Emit.upstreamClose = 1 ∧
      (cleanupSession ⟨true, true, true, true, true⟩).2.count Emit.clientClose = 1) := by
  refine ⟨⟨rfl, rfl⟩, ?_, ?_, ?_⟩
  · exact (cleanupSession_idempotent ⟨true, true, true, true, true⟩).1
  · exact (cleanupSession_idempotent ⟨true, true, true, true, true⟩).2.2.2.2.1 rfl rfl
  · exact (cleanupSession_idempotent ⟨true, true, true, true, true⟩).2.2.2.2.2 rfl rfl

/-- `processAudioInput` from the server, handling one inbound binary
client audio frame.  `openOk` is the outcome of `openGeminiSession`
(`ai.live.connect`) in case no upstream session exists yet: a
successful open fires the `onopen` callback, which clears
`isAISpeaking` and sends a `status` control message; a failed open is
caught by the surrounding try, which sends an `error` control message
and forwards nothing.  When the AI is speaking (barge-in), the code
first `safeSend`s the single-byte `0x03` INTERRUPTION frame to the
client, then sends the stop event upstream, clears `isAISpeaking`, and
only then forwards the audio upstream. -/
def processAudioInput (openOk : Bool) (st : SessionState) (audio : List Nat) :
    SessionState × List Emit :=
  let opened : SessionState × List Emit × Bool :=
    if st.geminiSession then (st, [], true)
    else if openOk then
      ({ st with geminiSession := true, isAISpeaking := false },
       safeSend st.clientOpen (Emit.clientCtrl "status" "AI session ready"), true)
    else
      (st, safeSend st.clientOpen (Emit.clientCtrl "error" "Error processing audio"), false)
  let st1 := opened.1
  let pre := opened.2.1
  if opened.2.2 = false then (st1, pre)
  else if st1.isAISpeaking then
    ({ st1 with isAISpeaking := false },
     pre ++ safeSend st1.clientOpen (Emit.clientBinary [0x03])
         ++ [Emit.upstreamStop, Emit.upstreamAudio audio])
  else (st1, pre ++ [Emit.upstreamAudio audio])

/-- C1: a client audio frame processed while the AI is speaking emits
exactly one INTERRUPTION frame (single byte 0x03) to the client, and
both that frame and the upstream stop signal precede the forwarding of
the audio payload upstream: the whole effect trace is precisely
`[INTERRUPTION, stop, forward audio]`.  The session also leaves the
speaking state. -/
theorem processAudioInput_barge_in (st : SessionState) (audio : List Nat) (openOk : Bool)
    (hspeak : st.isAISpeaking = true) (hsess : st.geminiSession = true)
    (hopen : st.clientOpen = true) :
    (processAudioInput openOk st audio).2
        = [Emit.clientBinary [0x03], Emit.upstreamStop, Emit.upstreamAudio audio] ∧
    (processAudioInput openOk st audio).2.count (Emit.clientBinary [0x03]) = 1 ∧
    (processAudioInput openOk st audio).1.isAISpeaking = false := by
  simp [processAudioInput, safeSend, hspeak, hsess, hopen, List.count_cons]

/-- Witness for `processAudioInput_barge_in` on a live speaking session
receiving the audio bytes `[7, 8]`. -/
theorem processAudioInput_barge_in_witness :
    ((⟨true, true, true, true, true⟩ : SessionState).isAISpeaking = true ∧
      (⟨true, true, true, true, true⟩ : SessionState).geminiSession = true ∧
      (⟨true, true, true, true, true⟩ : SessionState).clientOpen = true) ∧
    (processAudioInput true ⟨true, true, true, true, true⟩ [7, 8]).2
        = [Emit.clientBinary [0x03], Emit.upstreamStop, Emit.upstreamAudio [7, 8]] :=
  ⟨⟨rfl, rfl, rfl⟩,
    (processAudioInput_barge_in ⟨true, true, true, true, true⟩ [7, 8] true rfl rfl rfl).1⟩

/-- `MAX_RECONNECT_ATTEMPTS` from the server configuration. -/
def MAX_RECONNECT_ATTEMPTS : Nat := 3

/-- `attemptReconnect` from the server.  `isActive` and `clientOpen` are
the session flags read when the delayed callback fires (they are not
mutated by this code path); `n` is the current value of the
`reconnectAttempts` counter; `outcomes` lists the results of the
successive `openGeminiSession` calls the retry loop would make (`true`
= the connect promise resolves).  The result is the effect trace
together with the number of `openGeminiSession` calls actually made.
If the counter has reached the bound, exactly one `error` control
message is sent and no attempt is made; otherwise the counter is
incremented and, after the delay, the guarded callback reopens the
session only when the session is still active, resetting the counter on
success and recursing on failure.  An empty `outcomes` list means the
pending delay has not elapsed within the observation window. -/
def attemptReconnect (isActive clientOpen : Bool) : Nat → List Bool → List Emit × Nat
  | n, outcomes =>
    if MAX_RECONNECT_ATTEMPTS ≤ n then
      (safeSend clientOpen (Emit.clientCtrl "error" "Connection lost. Please refresh."), 0)
    else
      match outcomes with
      | [] => ([], 0)
      | ok :: rest =>
          if isActive then
            if ok then ([], 1)
            else
              let r := attemptReconnect isActive clientOpen (n + 1) rest
              (r.1, r.2 + 1)
          else ([], 0)

/-- The `onerror` callback of the Gemini session: it sends an
`AI service error` control message to the client immediately, before
invoking `attemptReconnect`. -/
def onGeminiError (isActive clientOpen : Bool) (n : Nat) (outcomes : List Bool) :
    List Emit × Nat :=
  let r := attemptReconnect isActive clientOpen n outcomes
  (safeSend clientOpen (Emit.clientCtrl "error" "AI service error") ++ r.1, r.2)

/-- The `onclose` callback of the Gemini session: it clears
`isAISpeaking` and invokes `attemptReconnect` (no message of its own). -/
def onGeminiClose (isActive clientOpen : Bool) (n : Nat) (outcomes : List Bool) :
    Bool × (List Emit × Nat) :=
  (false, attemptReconnect isActive clientOpen n outcomes)

/-- Invariant of the retry loop: starting from counter value `n`, at
most `3 - n` further open attempts are made; the single
`Connection lost` error message is emitted exactly when the next
`3 - n` scheduled outcomes all fail, and in that case exactly `3 - n`
attempts were made before stopping. -/
theorem attemptReconnect_aux (outs : List Bool) : ∀ n : Nat,
    (attemptReconnect true true n outs).2 ≤ 3 - n ∧
    ((attemptReconnect true true n outs).1.count
        (Emit.clientCtrl "error" "Connection lost. Please refresh.")
      = if outs.take (3 - n) = List.replicate (3 - n) false then 1 else 0) ∧
    (outs.take (3 - n) = List.replicate (3 - n) false →
      (attemptReconnect true true n outs).2 = 3 - n) := by
  induction outs with
  | nil =>
      intro n
      by_cases h3 : MAX_RECONNECT_ATTEMPTS ≤ n
      · have hn : 3 - n = 0 := by
          simp [MAX_RECONNECT_ATTEMPTS] at h3; omega
        simp [attemptReconnect, h3, hn, safeSend]
      · have hn : 0 < 3 - n := by
          simp [MAX_RECONNECT_ATTEMPTS] at h3; omega
        simp [attemptReconnect, h3]
        exact ⟨by rw [if_neg (by omega)], by omega⟩
  | cons ok rest ih =>
      intro n
      by_cases h3 : MAX_RECONNECT_ATTEMPTS ≤ n
      · have hn : 3 - n = 0 := by
          simp [MAX_RECONNECT_ATTEMPTS] at h3; omega
        simp [attemptReconnect, h3, hn, safeSend]
      · have hlt : n < 3 := by simpa [MAX_RECONNECT_ATTEMPTS] using h3
        obtain ⟨k, hk⟩ : ∃ k, 3 - n = k + 1 := ⟨3 - (n + 1), by omega⟩
        have hk1 : 3 - (n + 1) = k := by omega
        cases ok with
        | true =>
            simp [attemptReconnect, h3, hk, List.replicate_succ]
        | false =>
            obtain ⟨ihb, ihc, ihe⟩ := ih (n + 1)
            rw [hk1] at ihb ihc ihe
            simp [attemptReconnect, h3, hk, List.replicate_succ]
            refine ⟨by omega, ihc, fun h => by rw [ihe h]⟩

/-- C2 (amended): starting from a fresh counter, the retry loop makes
at most `MAX_RECONNECT_ATTEMPTS = 3` upstream open attempts; the
`Connection lost` error control message is emitted exactly once, and
exactly when the bounded retries are exhausted (the first three
attempts all fail), after which no further attempt is made (exactly 3
attempts occurred).  Note the separate `onerror` callback additionally
emits an `AI service error` message immediately on each upstream
error, before any retry (see the counterexample theorem). -/
theorem attemptReconnect_bounded (outs : List Bool) :
    (attemptReconnect true true 0 outs).2 ≤ MAX_RECONNECT_ATTEMPTS ∧
    ((attemptReconnect true true 0 outs).1.count
        (Emit.clientCtrl "error" "Connection lost. Please refresh.")
      = if outs.take 3 = [false, false, false] then 1 else 0) ∧
    (outs.take 3 = [false, false, false] →
      (attemptReconnect true true 0 outs).2 = MAX_RECONNECT_ATTEMPTS) := by
  have h := attemptReconnect_aux outs 0
  simpa [MAX_RECONNECT_ATTEMPTS, List.replicate] using h

/-- Witness for `attemptReconnect_bounded`: three straight failures
exhaust the bound with exactly three attempts. -/
theorem attemptReconnect_bounded_witness :
    [false, false, false].take 3 = [false, false, false] ∧
    (attemptReconnect true true 0 [false, false, false]).2 = MAX_RECONNECT_ATTEMPTS ∧
    (attemptReconnect true true 0 [false, false, false]).2 ≤ MAX_RECONNECT_ATTEMPTS :=
  ⟨rfl, (attemptReconnect_bounded [false, false, false]).2.2 rfl,
    (attemptReconnect_bounded [false, false, false]).1⟩

/-- C2 counterexample: after a single upstream error whose first
(and only) reconnection attempt succeeds — so the bounded retries are
NOT exhausted (1 attempt, bound 3) — the client has nevertheless
already received an error control message (`AI service error`), sent by
the `onerror` callback before `attemptReconnect` ran.  This refutes the
claim that an error control message is surfaced to the client only once
the bounded retries are exhausted. -/
theorem onGeminiError_message_before_exhaustion :
    (onGeminiError true true 0 [true]).1
        = [Emit.clientCtrl "error" "AI service error"] ∧
    (onGeminiError true true 0 [true]).2 = 1 ∧
    (onGeminiError true true 0 [true]).2 < MAX_RECONNECT_ATTEMPTS := by
  refine ⟨?_, rfl, by decide⟩
  simp [onGeminiError, attemptReconnect, safeSend, MAX_RECONNECT_ATTEMPTS]

/-- `SESSION_IDLE_MS` from the server configuration (1.5 minutes). -/
def SESSION_IDLE_MS : Nat := 90000

/-- Timed model of `resetIdleTimer`: `last` is the time of the most
recent timer reset (session start, or the last processed frame in
either direction, every one of which calls `resetIdleTimer`); `frames`
lists the arrival times of the subsequently processed frames;
`horizon` is the end of the observation window.  The armed timer is due
at `last + SESSION_IDLE_MS`; a frame arriving strictly before that
deadline clears and re-arms the timer at its own time; otherwise the
timer fires at the deadline (frames after the firing are handled by the
`isActive` guard, see `onClientMessage`).  Returns the firing time, or
`none` if the deadline never falls inside the window. -/
def idleFireTime : Nat → List Nat → Nat → Option Nat
  | last, [], horizon =>
      if last + SESSION_IDLE_MS ≤ horizon then some (last + SESSION_IDLE_MS) else none
  | last, t :: rest, horizon =>
      if t < last + SESSION_IDLE_MS then idleFireTime t rest horizon
      else some (last + SESSION_IDLE_MS)

/-- The callback armed by `resetIdleTimer`: on expiry it `safeSend`s the
`session_timeout` control message and then calls `cleanupSession`. -/
def onIdleTimeout (st : SessionState) : SessionState × List Emit :=
  let msgs := safeSend st.clientOpen
    (Emit.clientCtrl "session_timeout" "Session ended due to inactivity.")
  let r := cleanupSession st
  (r.1, msgs ++ r.2)

/-- Cleanup emits only close effects, never a control message. -/
theorem cleanupSession_count_ctrl (st : SessionState) (t m : String) :
    (cleanupSession st).2.count (Emit.clientCtrl t m) = 0 := by
  rcases st with ⟨g, sp, tm, act, cl⟩
  cases act <;> cases g <;> cases cl <;>
    simp [cleanupSession, List.count_cons, List.count_append]

/-- The timer fires within the window exactly when some inter-activity
gap (from one activity to the next frame, or from the last activity to
the window end) reaches the idle window. -/
theorem idleFireTime_isSome_iff (frames : List Nat) : ∀ last horizon : Nat,
    (idleFireTime last frames horizon).isSome ↔
      ∃ i, i < (last :: frames).length ∧
        (last :: frames).getD i 0 + SESSION_IDLE_MS
          ≤ (last :: frames).getD (i + 1) horizon := by
  induction frames with
  | nil =>
      intro last horizon
      constructor
      · intro h
        refine ⟨0, by simp, ?_⟩
        simp only [idleFireTime] at h
        by_cases hc : last + SESSION_IDLE_MS ≤ horizon
        · simpa using hc
        · simp [hc] at h
      · rintro ⟨i, hi, hgap⟩
        have hi0 : i = 0 := by simpa [Nat.lt_one_iff] using hi
        subst hi0
        simp only [List.getD_cons_zero] at hgap
        have h1 : (last :: []).getD 1 horizon = horizon := by simp
        rw [h1] at hgap
        simp [idleFireTime, hgap]
  | cons t rest ih =>
      intro last horizon
      by_cases hc : t < last + SESSION_IDLE_MS
      · rw [show idleFireTime last (t :: rest) horizon
              = idleFireTime t rest horizon by simp [idleFireTime, hc]]
        rw [ih t horizon]
        constructor
        · rintro ⟨i, hi, hgap⟩
          exact ⟨i + 1, by simpa using hi, by simpa using hgap⟩
        · rintro ⟨i, hi, hgap⟩
          cases i with
          | zero =>
              simp only [List.getD_cons_zero, List.getD_cons_succ] at hgap
              exact absurd hgap (by omega)
          | succ j =>
              refine ⟨j, by simpa using hi, ?_⟩
              simpa using hgap
      · rw [show idleFireTime last (t :: rest) horizon
              = some (last + SESSION_IDLE_MS) by simp [idleFireTime, hc]]
        simp only [Option.isSome_some, true_iff]
        refine ⟨0, by simp, ?_⟩
        rw [List.getD_cons_zero]
        have : (last :: t :: rest).getD 1 horizon = t := by simp
        rw [this]
        omega

/-- C3: (a) the idle timeout fires within the observation window if and
only if some maximal inactivity gap — between consecutive processed
frames, or from the last activity to the window end — reaches
`SESSION_IDLE_MS` (every processed frame re-arms the timer, visible in
the recursion of `idleFireTime`); and (b) when it fires on a live
session, the relay sends exactly one `session_timeout` control message
to the client, and the resulting state and remaining effects are
exactly those of a full `cleanupSession` — never a silent close. -/
theorem idle_timeout_fires_iff_and_notifies (last horizon : Nat) (frames : List Nat)
    (st : SessionState) (hopen : st.clientOpen = true) (hact : st.isActive = true) :
    ((idleFireTime last frames horizon).isSome ↔
      ∃ i, i < (last :: frames).length ∧
        (last :: frames).getD i 0 + SESSION_IDLE_MS
          ≤ (last :: frames).getD (i + 1) horizon) ∧
    (onIdleTimeout st).2.count
        (Emit.clientCtrl "session_timeout" "Session ended due to inactivity.") = 1 ∧
    (onIdleTimeout st).1 = (cleanupSession st).1 ∧
    (onIdleTimeout st).1.isActive = false ∧
    (onIdleTimeout st).2
      = Emit.clientCtrl "session_timeout" "Session ended due to inactivity."
          :: (cleanupSession st).2 := by
  refine ⟨idleFireTime_isSome_iff frames last horizon, ?_, rfl, ?_, ?_⟩
  · simp [onIdleTimeout, safeSend, hopen, List.count_cons,
      cleanupSession_count_ctrl]
  · rcases st with ⟨g, sp, tm, act, cl⟩
    cases g <;> cases cl <;> simp_all [onIdleTimeout, cleanupSession]
  · simp [onIdleTimeout, safeSend, hopen]

/-- Witness for `idle_timeout_fires_iff_and_notifies`: a session that
saw one frame at time 10 and nothing afterwards up to a horizon past
the deadline, on a live open session. -/
theorem idle_timeout_fires_iff_and_notifies_witness :
    ((⟨true, false, true, true, true⟩ : SessionState).clientOpen = true ∧
      (⟨true, false, true, true, true⟩ : SessionState).isActive = true) ∧
    ((idleFireTime 0 [10] 100000).isSome ↔
      ∃ i, i < ([0, 10] : List Nat).length ∧
        ([0, 10] : List Nat).getD i 0 + SESSION_IDLE_MS
          ≤ ([0, 10] : List Nat).getD (i + 1) 100000) ∧
    (onIdleTimeout ⟨true, false, true, true, true⟩).2.count
        (Emit.clientCtrl "session_timeout" "Session ended due to inactivity.") = 1 :=
  ⟨⟨rfl, rfl⟩,
    (idle_timeout_fires_iff_and_notifies 0 100000 [10]
        ⟨true, false, true, true, true⟩ rfl rfl).1,
    (idle_timeout_fires_iff_and_notifies 0 100000 [10]
        ⟨true, false, true, true, true⟩ rfl rfl).2.1⟩

/-- `handleGeminiAudio` from the server, with the base64 payload already
decoded to its PCM bytes.  An empty payload is logged and dropped;
otherwise the byte `0x01` is prepended and the framed buffer is
`safeSend`-forwarded to the client as one binary frame. -/
def handleGeminiAudio (clientOpen : Bool) (pcmBytes : List Nat) : List Emit :=
  if pcmBytes.length = 0 then []
  else safeSend clientOpen (Emit.clientBinary (0x01 :: pcmBytes))

/-- C8: an upstream audio callback with an empty decoded payload
forwards nothing to the client (no `0x01` frame, no frame at all),
while a non-empty payload reaches the open client as exactly one binary
frame consisting of the tag byte `0x01` followed by the raw PCM
bytes. -/
theorem handleGeminiAudio_empty_drop_nonempty_forward
    (pcmBytes : List Nat) (clientOpen : Bool) :
    (pcmBytes = [] → handleGeminiAudio clientOpen pcmBytes = []) ∧
    (pcmBytes ≠ [] → handleGeminiAudio true pcmBytes
        = [Emit.clientBinary (0x01 :: pcmBytes)]) ∧
    ((handleGeminiAudio true pcmBytes).count (Emit.clientBinary (0x01 :: pcmBytes))
        = if pcmBytes = [] then 0 else 1) := by
  refine ⟨fun h => by simp [handleGeminiAudio, h], fun h => ?_, ?_⟩
  · simp [handleGeminiAudio, safeSend, List.length_eq_zero, h]
  · by_cases h : pcmBytes = [] <;>
      simp [handleGeminiAudio, safeSend, List.length_eq_zero, h, List.count_cons]

/-- Witness for `handleGeminiAudio_empty_drop_nonempty_forward` on the
payload `[9]` and on the empty payload (the hypotheses of both inner
implications are discharged). -/
theorem handleGeminiAudio_witness :
    (([] : List Nat) = [] ∧ ([9] : List Nat) ≠ []) ∧
    handleGeminiAudio true [] = [] ∧
    handleGeminiAudio true [9] = [Emit.clientBinary [0x01, 9]] :=
  ⟨⟨rfl, by decide⟩,
    (handleGeminiAudio_empty_drop_nonempty_forward [] true).1 rfl,
    (handleGeminiAudio_empty_drop_nonempty_forward [9] true).2.1 (by decide)⟩

/-- A frame arriving from the client over the WebSocket: a binary audio
frame, or a text frame already parsed to its JSON `type` field. -/
inductive ClientFrame where
  | binary (audio : List Nat)
  | text (msgType : String)
  deriving DecidableEq, Repr

/-- The `clientWS.on message` handler.  If the session is no longer
active it returns at once (no timer reset, no effect, no state change).
Otherwise it re-arms the idle timer (the `Bool` in the result records
this), then dispatches: binary frames go to `processAudioInput`; a text
`interruption` message with an existing upstream session sends the
`0x03` INTERRUPTION frame to the client, a stop event upstream, and
clears `isAISpeaking`; any other text frame does nothing. -/
def onClientMessage (openOk : Bool) (st : SessionState) (f : ClientFrame) :
    SessionState × List Emit × Bool :=
  if st.isActive = false then (st, [], false)
  else
    match f with
    | ClientFrame.binary audio =>
        let r := processAudioInput openOk st audio
        (r.1, r.2, true)
    | ClientFrame.text msgType =>
        if msgType = "interruption" ∧ st.geminiSession = true then
          ({ st with isAISpeaking := false },
           safeSend st.clientOpen (Emit.clientBinary [0x03]) ++ [Emit.upstreamStop],
           true)
        else (st, [], true)

/-- C10: once cleanup has run (`isActive = false`, and the client
channel closed by cleanup), every further client frame — binary audio
or text control — is ignored: the state is returned unchanged, nothing
is sent in either direction, no upstream connection is opened or
written, and the idle timer is not re-armed.  Likewise the reconnection
controller, whose delayed callback reads the same `isActive` flag,
makes no reopen attempt and emits nothing. -/
theorem inactive_session_inert (st : SessionState) (hact : st.isActive = false)
    (hcl : st.clientOpen = false) (openOk : Bool) (f : ClientFrame)
    (n : Nat) (outcomes : List Bool) :
    onClientMessage openOk st f = (st, [], false) ∧
    attemptReconnect st.isActive st.clientOpen n outcomes = ([], 0) := by
  constructor
  · simp [onClientMessage, hact]
  · rw [hact, hcl]
    by_cases h3 : MAX_RECONNECT_ATTEMPTS ≤ n
    · rw [attemptReconnect.eq_def]
      simp [h3, safeSend]
    · cases outcomes with
      | nil => simp [attemptReconnect, h3]
      | cons ok rest => simp [attemptReconnect, h3]

/-- Witness for `inactive_session_inert`: a cleaned-up session ignores
a late binary frame, and a pending reconnect timer scheduled with two
outcomes available performs no attempt. -/
theorem inactive_session_inert_witness :
    ((⟨false, false, false, false, false⟩ : SessionState).isActive = false ∧
      (⟨false, false, false, false, false⟩ : SessionState).clientOpen = false) ∧
    onClientMessage true ⟨false, false, false, false, false⟩ (ClientFrame.binary [1, 2])
        = (⟨false, false, false, false, false⟩, [], false) ∧
    attemptReconnect false false 1 [true, false] = ([], 0) :=
  ⟨⟨rfl, rfl⟩,
    (inactive_session_inert ⟨false, false, false, false, false⟩ rfl rfl true
        (ClientFrame.binary [1, 2]) 1 [true, false]).1,
    (inactive_session_inert ⟨false, false, false, false, false⟩ rfl rfl true
        (ClientFrame.binary [1, 2]) 1 [true, false]).2⟩

/-- `PLAYBACK_SAMPLE_RATE` from `VoiceSession` (app.js). -/
def PLAYBACK_SAMPLE_RATE : ℚ := 24000

/-- Playback-scheduling state of `VoiceSession` (app.js):
`ctxRunning` mirrors `audioContext.state === running`;
`nextStartTime` is the forward scheduling cursor on the
`AudioContext` clock; `activeSources` holds (identifiers of) the
currently scheduled, not-yet-finished buffer sources. -/
structure SchedState where
  ctxRunning : Bool
  nextStartTime : ℚ
  activeSources : List Nat
  deriving DecidableEq, Repr

/-- The sample decode loop of `queueAudio`: each 16-bit sample is
normalised by `32768` and clamped to `[-1, 1]`. -/
def decodeSamples (int16Array : List ℤ) : List ℚ :=
  int16Array.map (fun v => max (-1) (min 1 ((v : ℚ) / 32768)))

/-- `VoiceSession.queueAudio` (app.js): a no-op unless the audio
context is running; otherwise it raises the cursor to
`max nextStartTime now` (`now` = `audioContext.currentTime`), builds a
buffer of `pcm.length` frames at `PLAYBACK_SAMPLE_RATE` (duration
`length / rate` seconds), starts the source at the raised cursor,
advances the cursor by the duration, and adds the source (identified
here by `srcId`) to the active set.  Returns the scheduled start time. -/
def queueAudio (st : SchedState) (now : ℚ) (pcm : List ℤ) (srcId : Nat) :
    SchedState × Option ℚ :=
  if st.ctxRunning then
    let start := max st.nextStartTime now
    let duration := (pcm.length : ℚ) / PLAYBACK_SAMPLE_RATE
    ({ st with nextStartTime := start + duration,
               activeSources := srcId :: st.activeSources }, some start)
  else (st, none)

/-- `VoiceSession.stopAllAudio` (app.js): stops every source in the
active set (the returned list), clears the set, and resets the cursor
`nextStartTime` to `0`.  Note the code does NOT read the playback
clock here. -/
def stopAllAudio (st : SchedState) : SchedState × List Nat :=
  ({ st with activeSources := [], nextStartTime := 0 }, st.activeSources)

/-- A sequence of `queueAudio` calls: each element of `calls` is the
clock reading at the call together with the PCM payload.  The output
lists, per accepted call, the triple
(clock reading, scheduled start, buffer duration). -/
def runQueue : SchedState → Nat → List (ℚ × List ℤ) → SchedState × List (ℚ × ℚ × ℚ)
  | st, _, [] => (st, [])
  | st, i, (now, pcm) :: rest =>
      let r1 := queueAudio st now pcm i
      let r2 := runQueue r1.1 (i + 1) rest
      match r1.2 with
      | some start =>
          (r2.1, (now, start, (pcm.length : ℚ) / PLAYBACK_SAMPLE_RATE) :: r2.2)
      | none => (r2.1, r2.2)

/-- The chaining invariant of the scheduler, stated as a `List.Chain`
whose seed `p` satisfies `p.2.1 + p.2.2 = st.nextStartTime` and
`0 ≤ p.2.2`: every scheduled start equals
`max (previous start + previous duration) now`, durations are
nonnegative, starts are monotone, and a chunk arriving while the
previous one is still scheduled starts exactly at the previous computed
end. -/
theorem runQueue_chain (calls : List (ℚ × List ℤ)) :
    ∀ (st : SchedState) (i : Nat) (p : ℚ × ℚ × ℚ),
      st.ctxRunning = true → p.2.1 + p.2.2 = st.nextStartTime → 0 ≤ p.2.2 →
      List.Chain (fun p q : ℚ × ℚ × ℚ =>
          q.2.1 = max (p.2.1 + p.2.2) q.1 ∧ 0 ≤ q.2.2 ∧ p.2.1 ≤ q.2.1 ∧
          (q.1 ≤ p.2.1 + p.2.2 → q.2.1 = p.2.1 + p.2.2))
        p (runQueue st i calls).2 := by
  induction calls with
  | nil => intro st i p hrun hsum hd; simp [runQueue]
  | cons c rest ih =>
      intro st i p hrun hsum hd
      obtain ⟨now, pcm⟩ := c
      have hdur : (0 : ℚ) ≤ (pcm.length : ℚ) / PLAYBACK_SAMPLE_RATE := by
        apply div_nonneg (by positivity)
        simp [PLAYBACK_SAMPLE_RATE]
      rw [show runQueue st i ((now, pcm) :: rest)
            = ((runQueue { st with
                  nextStartTime := max st.nextStartTime now
                    + (pcm.length : ℚ) / PLAYBACK_SAMPLE_RATE,
                  activeSources := i :: st.activeSources } (i + 1) rest).1,
               (now, max st.nextStartTime now,
                  (pcm.length : ℚ) / PLAYBACK_SAMPLE_RATE)
                 :: (runQueue { st with
                  nextStartTime := max st.nextStartTime now
                    + (pcm.length : ℚ) / PLAYBACK_SAMPLE_RATE,
                  activeSources := i :: st.activeSources } (i + 1) rest).2)
          by simp [runQueue, queueAudio, hrun]]
      apply List.Chain.cons
      · refine ⟨by rw [hsum], hdur, ?_, ?_⟩
        · calc p.2.1 ≤ p.2.1 + p.2.2 := le_add_of_nonneg_right hd
            _ = st.nextStartTime := hsum
            _ ≤ max st.nextStartTime now := le_max_left _ _
        · intro hle
          rw [hsum] at hle ⊢
          exact max_eq_left hle
      · exact ih _ (i + 1) _ hrun rfl hdur

/-- C5 (amended): for every sequence of `queueAudio` calls on a running
context, each chunk is scheduled at `max (nextStartTime, now)` — i.e.
at the previous chunk computed end raised to the arrival time —
durations are nonnegative, scheduled starts are non-decreasing, and
whenever a chunk arrives at or before the previous chunk computed
end, its start equals exactly that end (gapless chaining); the cursor
is advanced by each buffer duration (the `max` equation over the
seeded chain).  The unamended claim (start always equals the previous
computed end) fails when a chunk arrives after the cursor, see the
counterexample theorem. -/
theorem queueAudio_gapless_chain (st : SchedState) (i : Nat)
    (calls : List (ℚ × List ℤ)) (hrun : st.ctxRunning = true) :
    List.Chain (fun p q : ℚ × ℚ × ℚ =>
        q.2.1 = max (p.2.1 + p.2.2) q.1 ∧ 0 ≤ q.2.2 ∧ p.2.1 ≤ q.2.1 ∧
        (q.1 ≤ p.2.1 + p.2.2 → q.2.1 = p.2.1 + p.2.2))
      (0, st.nextStartTime, 0) (runQueue st i calls).2 :=
  runQueue_chain calls st i (0, st.nextStartTime, 0) hrun (by simp) le_rfl

/-- Witness for `queueAudio_gapless_chain`: two back-to-back chunks of
one sample each at clock time 0 chain gaplessly. -/
theorem queueAudio_gapless_chain_witness :
    ((⟨true, 0, []⟩ : SchedState).ctxRunning = true) ∧
    List.Chain (fun p q : ℚ × ℚ × ℚ =>
        q.2.1 = max (p.2.1 + p.2.2) q.1 ∧ 0 ≤ q.2.2 ∧ p.2.1 ≤ q.2.1 ∧
        (q.1 ≤ p.2.1 + p.2.2 → q.2.1 = p.2.1 + p.2.2))
      (0, (0 : ℚ), 0) (runQueue ⟨true, 0, []⟩ 0 [(0, [5]), (0, [6])]).2 :=
  ⟨rfl, by simpa using queueAudio_gapless_chain ⟨true, 0, []⟩ 0 [(0, [5]), (0, [6])] rfl⟩

/-- C5 counterexample: with a one-sample chunk enqueued at clock time 0
and a second chunk enqueued at clock time 1 (after the first finished),
the second start (1) differs from the first computed end (1/24000):
starts are chained to `max` of the previous end and the arrival time,
not always to the previous end. -/
theorem queueAudio_not_always_gapless :
    ((runQueue ⟨true, 0, []⟩ 0 [(0, [5]), (1, [6])]).2.getD 1 (0, 0, 0)).2.1
      ≠ ((runQueue ⟨true, 0, []⟩ 0 [(0, [5]), (1, [6])]).2.getD 0 (0, 0, 0)).2.1
        + ((runQueue ⟨true, 0, []⟩ 0 [(0, [5]), (1, [6])]).2.getD 0 (0, 0, 0)).2.2 := by
  norm_num [runQueue, queueAudio, PLAYBACK_SAMPLE_RATE]

/-- C6: `stopAllAudio` immediately followed by `queueAudio` schedules
the new chunk at the current clock reading `now` (the clock is
nonnegative), never at a stale future time: the stop resets the cursor
to 0 and the enqueue takes `max 0 now = now`. -/
theorem stop_then_enqueue_starts_now (st : SchedState) (now : ℚ) (pcm : List ℤ)
    (srcId : Nat) (hrun : st.ctxRunning = true) (hnow : 0 ≤ now) :
    (queueAudio (stopAllAudio st).1 now pcm srcId).2 = some now := by
  simp [stopAllAudio, queueAudio, hrun, max_eq_right hnow]

/-- Witness for `stop_then_enqueue_starts_now`: a state whose cursor
points far in the future (time 50), stopped and re-enqueued at clock
time 2, starts at 2. -/
theorem stop_then_enqueue_starts_now_witness :
    ((⟨true, 50, [0, 1]⟩ : SchedState).ctxRunning = true ∧ (0 : ℚ) ≤ 2) ∧
    (queueAudio (stopAllAudio ⟨true, 50, [0, 1]⟩).1 2 [5, 6] 2).2 = some 2 :=
  ⟨⟨rfl, by norm_num⟩,
    stop_then_enqueue_starts_now ⟨true, 50, [0, 1]⟩ 2 [5, 6] 2 rfl (by norm_num)⟩

/-- C7 (amended): `stopAllAudio` stops exactly the sources of the
active set (the returned list), leaves the set empty, and resets the
cursor `nextStartTime` to `0` — not to the current playback clock
time; the next `queueAudio` still starts at the current time because it
takes `max` with the clock.  The running flag is untouched. -/
theorem stopAllAudio_spec (st : SchedState) :
    (stopAllAudio st).2 = st.activeSources ∧
    (stopAllAudio st).1.activeSources = [] ∧
    (stopAllAudio st).1.nextStartTime = 0 ∧
    (stopAllAudio st).1.ctxRunning = st.ctxRunning := by
  simp [stopAllAudio]

/-- C7 counterexample: calling `stopAllAudio` at a moment when the
playback clock reads 1 leaves the cursor at 0, not at the
current time 1 — the function never reads the clock. -/
theorem stopAllAudio_not_clock_reset :
    (stopAllAudio ⟨true, 7, [0]⟩).1.nextStartTime ≠ 1 := by
  norm_num [stopAllAudio]

namespace InputProcessor

/-- The clamp in `InputProcessor.process` (input-processor.js):
`Math.max(-1, Math.min(1, x))`. -/
def clampSample (x : ℚ) : ℚ := max (-1) (min 1 x)

/-- Truncation toward zero, as performed by the JavaScript
`Int16Array` element conversion (ToIntegerOrInfinity) on the float
product.  The product of a float32 sample with `0x7fff` is exact in
float64 (24 + 15 significand bits), so `ℚ` models it exactly. -/
def jsTrunc (x : ℚ) : ℤ := if 0 ≤ x then ⌊x⌋ else ⌈x⌉

/-- The final wrap of the `Int16Array` element conversion: the integer
is reduced modulo `2 ^ 16` into `[-32768, 32767]`. -/
def wrapInt16 (n : ℤ) : ℤ := (n + 32768) % 65536 - 32768

/-- One iteration of the conversion loop of `InputProcessor.process`:
`int16Array[i] = Math.max(-1, Math.min(1, float32Array[i])) * 0x7fff`. -/
def sampleToInt16 (x : ℚ) : ℤ := wrapInt16 (jsTrunc (clampSample x * 32767))

/-- `InputProcessor.process` (input-processor.js): converts one block of
captured float samples to 16-bit PCM, one integer per sample. -/
def process (input : List ℚ) : List ℤ := input.map sampleToInt16

end InputProcessor

/-- Truncation toward zero lies between any integer bounds enclosing
the argument, provided the bounds enclose zero as well. -/
theorem jsTrunc_bounds (x : ℚ) (lo hi : ℤ) (hlo : (lo : ℚ) ≤ x)
    (hhi : x ≤ (hi : ℚ)) (hlo0 : lo ≤ 0) (hhi0 : 0 ≤ hi) :
    lo ≤ InputProcessor.jsTrunc x ∧ InputProcessor.jsTrunc x ≤ hi := by
  unfold InputProcessor.jsTrunc
  split
  next h =>
    refine ⟨le_trans hlo0 (Int.le_floor.mpr (by exact_mod_cast h)), ?_⟩
    have hq : (⌊x⌋ : ℚ) ≤ (hi : ℚ) := le_trans (Int.floor_le x) hhi
    exact_mod_cast hq
  next h =>
    have hx0 : x ≤ 0 := le_of_lt (lt_of_not_ge h)
    refine ⟨?_, le_trans (Int.ceil_le.mpr (by exact_mod_cast hx0)) hhi0⟩
    have hq : (lo : ℚ) ≤ (⌈x⌉ : ℚ) := le_trans hlo (Int.le_ceil x)
    exact_mod_cast hq

/-- The modular `Int16Array` wrap is the identity on values already in
the signed 16-bit range. -/
theorem wrapInt16_eq_self (n : ℤ) (h1 : -32768 ≤ n) (h2 : n < 32768) :
    InputProcessor.wrapInt16 n = n := by
  unfold InputProcessor.wrapInt16
  rw [Int.emod_eq_of_lt (by omega) (by omega)]
  omega

/-- The truncated scaled clamp of any sample lies in `[-32767, 32767]`. -/
theorem jsTrunc_clamp_bounds (x : ℚ) :
    -32767 ≤ InputProcessor.jsTrunc (InputProcessor.clampSample x * 32767) ∧
    InputProcessor.jsTrunc (InputProcessor.clampSample x * 32767) ≤ 32767 := by
  have h1 : -1 ≤ InputProcessor.clampSample x := le_max_left _ _
  have h2 : InputProcessor.clampSample x ≤ 1 :=
    max_le (by norm_num) (min_le_left _ _)
  have hlo : ((-32767 : ℤ) : ℚ) ≤ InputProcessor.clampSample x * 32767 := by
    push_cast
    nlinarith
  have hhi : InputProcessor.clampSample x * 32767 ≤ ((32767 : ℤ) : ℚ) := by
    push_cast
    nlinarith
  exact jsTrunc_bounds _ _ _ hlo hhi (by norm_num) (by norm_num)

/-- C9: the Audio Capture Unit emits one 16-bit integer per captured
sample; each emitted value is the sample clamped to `[-1, 1]`, scaled
by `0x7fff` and truncated toward zero — the modular 16-bit wrap never
fires, so every value lies in the signed 16-bit range (in fact in
`[-32767, 32767]`), and out-of-range inputs saturate at `±32767`
instead of wrapping. -/
theorem process_range_and_saturation (input : List ℚ) :
    (InputProcessor.process input).length = input.length ∧
    (∀ y ∈ InputProcessor.process input, -32768 ≤ y ∧ y ≤ 32767) ∧
    (∀ x : ℚ, InputProcessor.sampleToInt16 x
        = InputProcessor.jsTrunc (InputProcessor.clampSample x * 32767)) ∧
    (∀ x : ℚ, 1 ≤ x → InputProcessor.sampleToInt16 x = 32767) ∧
    (∀ x : ℚ, x ≤ -1 → InputProcessor.sampleToInt16 x = -32767) := by
  have hkey : ∀ x : ℚ, InputProcessor.sampleToInt16 x
      = InputProcessor.jsTrunc (InputProcessor.clampSample x * 32767) := by
    intro x
    obtain ⟨hl, hr⟩ := jsTrunc_clamp_bounds x
    exact wrapInt16_eq_self _ (by omega) (by omega)
  refine ⟨by simp [InputProcessor.process], ?_, hkey, ?_, ?_⟩
  · intro y hy
    simp only [InputProcessor.process, List.mem_map] at hy
    obtain ⟨x, _, rfl⟩ := hy
    rw [hkey x]
    obtain ⟨hl, hr⟩ := jsTrunc_clamp_bounds x
    exact ⟨by omega, hr⟩
  · intro x hx
    have hc : InputProcessor.clampSample x = 1 := by
      rw [InputProcessor.clampSample, min_eq_left hx]
      exact max_eq_right (by norm_num)
    rw [hkey x, hc]
    norm_num [InputProcessor.jsTrunc]
  · intro x hx
    have hc : InputProcessor.clampSample x = -1 := by
      rw [InputProcessor.clampSample,
        min_eq_right (le_trans hx (by norm_num))]
      exact max_eq_left hx
    rw [hkey x, hc]
    norm_num [InputProcessor.jsTrunc]
    exact_mod_cast Int.ceil_intCast (-32767)

/-- Witness for `process_range_and_saturation`: the block
`[2, -3, 1/2]` maps to `[32767, -32767, 16383]` — saturation on both
sides and truncation of `16383.5` toward zero. -/
theorem process_range_and_saturation_witness :
    ((1 : ℚ) ≤ 2 ∧ (-3 : ℚ) ≤ -1) ∧
    InputProcessor.sampleToInt16 2 = 32767 ∧
    InputProcessor.sampleToInt16 (-3) = -32767 ∧
    (InputProcessor.process [2, -3, 1/2]).length = 3 :=
  ⟨⟨by norm_num, by norm_num⟩,
    (process_range_and_saturation []).2.2.2.1 2 (by norm_num),
    (process_range_and_saturation []).2.2.2.2 (-3) (by norm_num),
    (process_range_and_saturation [2, -3, 1/2]).1⟩

end RevoltGemini
